import Mathlib

/-
Verification of the Wireskip contract server (settlement tracker, balance
ledger, withdrawal pipeline and signed-envelope layer) against its
natural-language specification.

The Rust source is shallowly embedded:
  * `rust_decimal::Decimal` is modelled as `ℚ`.  `Decimal::MAX` / `Decimal::MIN`
    are the exact 96-bit bounds of the Rust crate; rounding at the 28-digit
    scale limit is not modelled (all claim-relevant computations stay far
    below it).  `ℚ` has no negative zero, so `is_sign_negative` is modelled
    as `< 0`.
  * `HashMap<String, _>` ledgers are modelled as association lists with
    first-match lookup; `entry(k).or_default()` is `entryOrDefault`.
    HashMap iteration order is unspecified in Rust and modelled as the
    insertion order of the association list.
  * `BinaryHeap<ChronoSort<Sharetoken>>` pops a greatest element w.r.t.
    `Ord for ChronoSort`, which reverses the comparison of the `timestamp`
    keys (src/src/api/chronosort.rs:44-51); this matches
    `impl Ord for Sharetoken` (src/src/api/mod.rs:299-303), which reverses
    `u64::cmp` on the `timestamp` field.  The heap is therefore modelled as
    a list kept sorted by ascending `timestamp`; `push` is ordered
    insertion and `peek`/`pop` read the head.  Tie order between equal
    timestamps is unspecified in Rust; the model keeps insertion order.
  * Ed25519 keys, signatures and base64 renderings are opaque `String`s;
    signature verification is an abstract boolean parameter wherever the
    control flow of the embedded code depends on it.
  * Filesystem writes, logging timestamps and the HTTP transport are not
    modelled; the payment-system response is an explicit input.
  * Panics (`assert!`, `unwrap`) in `Tracker::tick` are modelled by
    returning `Except.error`; debug-only panics (`cfg!(debug_assertions)`
    in `Balances::commit`) are not modelled (production semantics).
-/

namespace Wireskip

/-! ## Decimal model (rust_decimal) -/

/-- `Decimal::MAX` of `rust_decimal`: `2^96 - 1` at scale 0. -/
def DecimalMAX : ℚ := 79228162514264337593543950335

/-- `Decimal::MIN` of `rust_decimal`: `-(2^96 - 1)` at scale 0. -/
def DecimalMIN : ℚ := -DecimalMAX

/-! ## Balance ledger (src/src/contract/tracker.rs, `Balances`)

The Rust `Balances` struct holds `HashMap<String, Arc<RwLock<(Decimal, Decimal)>>>`
mapping a relay public key to `(available, pending)`.  We model it as an
association list; the per-key `RwLock` is immaterial for the sequential
semantics proved here. -/

/-- Model of the balances map: relay key to `(available, pending)`. -/
abbrev BalMap := List (String × (ℚ × ℚ))

/-- First-match lookup in the balances map. -/
def getBal : BalMap → String → Option (ℚ × ℚ)
  | [], _ => none
  | (k, v) :: t, k0 => if k = k0 then some v else getBal t k0

/-- Overwrite the value at a key, or append the entry if the key is absent. -/
def setBal : BalMap → String → (ℚ × ℚ) → BalMap
  | [], k0, v0 => [(k0, v0)]
  | (k, v) :: t, k0, v0 => if k = k0 then (k0, v0) :: t else (k, v) :: setBal t k0 v0

/-- Model of `self.h.entry(rk.to_string()).or_default()`: ensure the key is
present, inserting `(0, 0)` when absent, and return the map together with
the current value. -/
def entryOrDefault (m : BalMap) (k : String) : BalMap × (ℚ × ℚ) :=
  match getBal m k with
  | some v => (m, v)
  | none => (setBal m k (0, 0), (0, 0))

/-- `Action` from src/src/contract/tracker.rs:20-23. -/
inductive Action
  | Apply
  | Abort
deriving DecidableEq, Repr

/-- `BalanceUpdate` from src/src/contract/tracker.rs:26-29. -/
structure BalanceUpdate where
  relay : String
  action : Action
deriving DecidableEq, Repr

namespace Balances

/-- `Balances::draft` (src/src/contract/tracker.rs:128-161).  Returns the
`Result` together with the (possibly mutated) map: the `entry().or_default()`
insertion happens before any check, so the key is added even when the draft
fails.  `delta.is_sign_negative()` is modelled as `delta < 0` (ℚ has no
negative zero). -/
def draft (m : BalMap) (rk : String) (delta : ℚ) : Except String Unit × BalMap :=
  let md := entryOrDefault m rk
  let m := md.1
  let cur := md.2
  if cur.2 ≠ 0 then
    (.error "balance change already pending!", m)
  else if delta < 0 then
    -- it is a withdrawal
    if cur.1 ≤ 0 then
      (.error "you got zero cash!", m)
    else if cur.1 + delta ≤ 0 then
      (.error ("insufficient balance: " ++ toString delta ++ " requested, "
        ++ toString cur.1 ++ " available"), m)
    else if DecimalMIN - delta ≥ cur.1 then
      -- check for underflow
      (.error "balance overflow!!!", m)
    else
      -- to be finalized later
      (.ok (), setBal m rk (cur.1, delta))
  else
    -- it is a share reward... probably; just check for overflow
    if DecimalMAX - delta ≤ cur.1 then
      (.error "balance overflow!!!", m)
    else
      (.ok (), setBal m rk (cur.1, delta))

/-- `Balances::commit` (src/src/contract/tracker.rs:164-193), production
semantics: `Apply` adds the pending delta to the available balance and
clears it, `Abort` just clears it.  The debug-build panics on zero pending
are not modelled. -/
def commit (m : BalMap) (rk : String) (act : Action) : BalMap :=
  let md := entryOrDefault m rk
  let m := md.1
  let cur := md.2
  match act with
  | .Apply => setBal m rk (cur.1 + cur.2, 0)
  | .Abort => setBal m rk (cur.1, 0)

end Balances

/-! ## Sharetoken and SKContract (src/src/api/mod.rs)

Public keys and signatures are carried as their base64 URL-safe unpadded
string rendering (`Base64<_>::to_string()`); this is exactly what every
claim-relevant code path consumes. -/

/-- `SKContract` (src/src/api/mod.rs:233-238). -/
structure SKContract where
  public_key : String
  signature : String
  settlement_open : Int
  settlement_close : Int
deriving DecidableEq, Repr

/-- `Sharetoken` (src/src/api/mod.rs:241-249).  `share_key` was never
implemented and contributes a fixed empty string to the digest. -/
structure Sharetoken where
  version : Nat
  public_key : String
  timestamp : Int
  relay_pubkey : String
  signature : String
  nonce : String
  contract : SKContract
deriving DecidableEq, Repr

/-- Digest of an `SKContract` excluding its own signature: the string the
contract server signs on `/servicekey/activate`
(src/src/contract/mod.rs:46, `[pk, uso, uss].join(":")`). -/
def SKContract.digestFields (c : SKContract) : List String :=
  [c.public_key, toString c.settlement_open, toString c.settlement_close]

/-- Digest-with-signature of an `SKContract`: the four ordered fields
`public_key, signature, settlement_open, settlement_close`, as they are
substituted into the enclosing sharetoken digest
(src/src/api/mod.rs:261-264). -/
def SKContract.digestWithSigFields (c : SKContract) : List String :=
  [c.public_key, c.signature, toString c.settlement_open, toString c.settlement_close]

/-- Field list of `Signable::digest` for `Sharetoken`
(src/src/api/mod.rs:253-266): the ordered field values, the unimplemented
share key as `""`, and the embedded contract fields including the contract
signature; the sharetoken's own `signature` field is absent. -/
def Sharetoken.digestFields (st : Sharetoken) : List String :=
  [toString st.version,
   st.public_key,
   toString st.timestamp,
   st.relay_pubkey,
   "", -- sharekey was never implemented
   st.nonce,
   st.contract.public_key,
   st.contract.signature,
   toString st.contract.settlement_open,
   toString st.contract.settlement_close]

/-- `Sharetoken::digest` (src/src/api/mod.rs:253-266): the field values
joined by the single byte `:`. -/
def Sharetoken.digest (st : Sharetoken) : String :=
  String.intercalate ":" st.digestFields

/-- `Signed::<T>::deserialize` (src/src/api/signed.rs:20-34) specialised to
`Sharetoken`: deserialize the payload, then verify the Ed25519 signature
over the canonical digest with the record's own public key; fail (with a
serde error) when verification fails.  Ed25519 itself is abstracted by the
`verify pk msg sig` parameter. -/
def Signed.deserialize (verify : String → String → String → Bool)
    (st : Sharetoken) : Option Sharetoken :=
  if verify st.public_key st.digest st.signature then some st else none

/-! ## Sharetoken queue ordering

`Tracker.sts` is `BinaryHeap<ChronoSort<Sharetoken>>`.  `ChronoSort`
compares `Timestamped::timestamp` values in reverse
(src/src/api/chronosort.rs:44-51: `Ordering::reverse(i64::cmp(...))`),
exactly as `impl Ord for Sharetoken` reverses `u64::cmp` on the
`timestamp` field (src/src/api/mod.rs:299-303).  A `BinaryHeap` pops a
greatest element of that order, i.e. an element with minimal `timestamp`.
The heap is therefore modelled as a list kept sorted by ascending
`timestamp`: push is ordered insertion, peek/pop read the head.  The tie
order between equal timestamps is unspecified in Rust; the model keeps
ties in insertion order. -/

/-- Ordered insertion by ascending `timestamp` (model of heap `push`). -/
def insertByTs (st : Sharetoken) : List Sharetoken → List Sharetoken
  | [] => [st]
  | h :: t => if h.timestamp ≤ st.timestamp then h :: insertByTs st t else st :: h :: t

/-- The queue invariant: sorted by ascending `timestamp`. -/
def sortedByTs (l : List Sharetoken) : Prop :=
  List.Pairwise (fun a b => a.timestamp ≤ b.timestamp) l

/-! ## Reward calculation (src/src/contract/calc.rs) -/

/-- `DefaultShareCalc` (src/src/contract/calc.rs:10-14): configured service
value and the fee / revenue-share fractions, all Decimal. -/
structure DefaultShareCalc where
  value : ℚ
  fee_frac : ℚ
  rsh_frac : ℚ
deriving DecidableEq, Repr

/-- `DefaultShareCalc::reward` (src/src/contract/calc.rs:17-25):
`share * (value - fee_frac*value - rsh_frac*value)`. -/
def DefaultShareCalc.reward (c : DefaultShareCalc) (share : ℚ) : ℚ :=
  share * (c.value - (c.fee_frac * c.value) - (c.rsh_frac * c.value))

/-! ## Settlement tracker (src/src/contract/tracker.rs) -/

/-- The tracker log events (src/src/contract/tracker.rs:34-45).  The
unix-second stamp attached by `TrackerLog::add` is wall-clock IO and is not
modelled. -/
inductive Event
  | Submission (sk rk : String)
  | Distribution (sk rk : String) (delta : ℚ)
  | WithdrawalPending (rk : String) (delta : ℚ)
  | WithdrawalFinal (rk : String) (act : Action)
  | Settlement (sk : String)
deriving DecidableEq, Repr

/-- Count maps `totals : HashMap<String, Decimal>` and
`tokens : HashMap<(String, String), Decimal>`, modelled as association
lists in insertion order. -/
abbrev CountMap (α : Type) := List (α × ℚ)

/-- First-match lookup in a count map. -/
def getCnt {α : Type} [DecidableEq α] : CountMap α → α → Option ℚ
  | [], _ => none
  | (k, v) :: t, k0 => if k = k0 then some v else getCnt t k0

/-- `*m.entry(k).or_default() += Decimal::ONE`. -/
def bumpCnt {α : Type} [DecidableEq α] (m : CountMap α) (k : α) : CountMap α :=
  match m with
  | [] => [(k, 1)]
  | (k1, v) :: t => if k1 = k then (k, v + 1) :: t else (k1, v) :: bumpCnt t k

/-- The tracker state (src/src/contract/tracker.rs:78-106).  Filesystem
paths and the Tokio channel receiver are not part of the functional state;
the share calculator is the `DefaultShareCalc` parameters (the `SafeCalc`
trait object of the source instantiated at its only implementation). -/
structure Tracker where
  shareCalc : DefaultShareCalc
  interval : Int
  sts : List Sharetoken
  balances : BalMap
  totals : CountMap String
  tokens : CountMap (String × String)
  archive_q : List Sharetoken
  log : List Event
deriving Repr

/-- `Tracker::push` (src/src/contract/tracker.rs:275-281): log a
`Submission` event and heap-push the sharetoken. -/
def Tracker.push (tr : Tracker) (st : Sharetoken) : Tracker :=
  { tr with
    log := tr.log ++ [Event.Submission st.public_key st.relay_pubkey],
    sts := insertByTs st tr.sts }

/-- The sequence of sharetokens popped by the drain loop of
`Tracker::tick` (src/src/contract/tracker.rs:291-321): peek the heap top
(minimal timestamp) and pop while its `contract.settlement_close ≤ t`;
stop at the first top that is still in the future. -/
def Tracker.poppedSTs (tr : Tracker) (t : Int) : List Sharetoken :=
  tr.sts.takeWhile (fun st => st.contract.settlement_close ≤ t)

/-- The distribution loop of `Tracker::tick`
(src/src/contract/tracker.rs:323-334): for each drained `((sk, rk), v)`
token count compute `share = v / totals[sk]` and the reward, assert the
reward is sign-positive, draft it and commit `Apply`, logging a
`Distribution` event.  The `assert!` and the `unwrap()` on the draft are
modelled as `Except.error` (a panic). -/
def distribute (c : DefaultShareCalc) (totals : CountMap String) :
    List ((String × String) × ℚ) → BalMap → List Event →
    Except String (BalMap × List Event)
  | [], bal, log => .ok (bal, log)
  | ((sk, rk), v) :: rest, bal, log =>
    let share := v / (getCnt totals sk).getD 0
    let r := c.reward share
    if r < 0 then
      .error "assertion failed: r.is_sign_positive()"
    else
      match Balances.draft bal rk r with
      | (.error e, _) => .error e
      | (.ok (), b1) =>
        let b2 := Balances.commit b1 rk .Apply
        distribute c totals rest b2 (log ++ [Event.Distribution sk rk r])

/-- The `totals` count map after the drain loop of a tick: one unit per
popped sharetoken, keyed by servicekey public key, accumulated onto the
tracker's persistent `totals` table
(src/src/contract/tracker.rs:304, `*self.totals.entry(sks).or_default() += ONE`). -/
def tickTotals (tr : Tracker) (t : Int) : CountMap String :=
  (tr.poppedSTs t).foldl (fun m st => bumpCnt m st.public_key) tr.totals

/-- The `tokens` count map after the drain loop of a tick: one unit per
popped sharetoken, keyed by (servicekey, relay) public-key pair
(src/src/contract/tracker.rs:305). -/
def tickTokens (tr : Tracker) (t : Int) : CountMap (String × String) :=
  (tr.poppedSTs t).foldl
    (fun m st => bumpCnt m (st.public_key, st.relay_pubkey)) tr.tokens

/-- `Tracker::tick` (src/src/contract/tracker.rs:287-361).  Returns the
updated tracker and the next tick time, or an error when the distribution
loop would panic.  Filesystem archival always succeeds in the model (the
archive queue is drained), and the tracker-log save is a no-op. -/
def Tracker.tick (tr : Tracker) (t : Int) : Except String (Tracker × Int) :=
  let rest := tr.sts.dropWhile (fun st => st.contract.settlement_close ≤ t)
  let next : Int :=
    match rest.head? with
    | some st => st.contract.settlement_close
    | none => t + tr.interval
  let totals := tickTotals tr t
  -- archive_q receives the popped STs during the drain and is cleared
  -- unconditionally after the archive write at the end of the same tick
  -- (src/src/contract/tracker.rs:306,346-355), so it ends the tick empty.
  match distribute tr.shareCalc totals (tickTokens tr t) tr.balances tr.log with
  | .error e => .error e
  | .ok (bal, log) =>
    .ok ({ tr with
            sts := rest,
            balances := bal,
            totals := [],
            tokens := [],
            archive_q := [],
            log := if totals.length > 0 then
                log ++ totals.map (fun kv => Event.Settlement kv.1)
              else log },
          next)

/-- `Tracker::txn_tick` (src/src/contract/tracker.rs:363-372): non-blocking
poll of the BalanceUpdate channel; on a message, commit it and log a
`WithdrawalFinal` event.  The polled message (or channel emptiness) is the
explicit `upd` input. -/
def Tracker.txn_tick (tr : Tracker) (upd : Option BalanceUpdate) : Tracker :=
  match upd with
  | some u =>
    { tr with
      balances := Balances.commit tr.balances u.relay u.action,
      log := tr.log ++ [Event.WithdrawalFinal u.relay u.action] }
  | none => tr

/-! ## Spec-side counting functions for settlement -/

/-- Number of sharetokens of servicekey `sk` held by relay `rk` in a list
(the spec's `count(sk, relay)`), as a Decimal. -/
def pairCount (l : List Sharetoken) (sk rk : String) : ℚ :=
  (l.countP (fun st => decide (st.public_key = sk ∧ st.relay_pubkey = rk)) : ℚ)

/-- Number of sharetokens of servicekey `sk` in a list (the spec's
`total(sk)`), as a Decimal. -/
def skCount (l : List Sharetoken) (sk : String) : ℚ :=
  (l.countP (fun st => decide (st.public_key = sk)) : ℚ)

/-- Total reward credited to relay `rk` by one distribution pass: the sum
of `reward(v / totals[sk])` over the token entries of `rk`. -/
def rkCreditSum (c : DefaultShareCalc) (totals : CountMap String)
    (toks : List ((String × String) × ℚ)) (rk : String) : ℚ :=
  ((toks.filter (fun e => decide (e.1.2 = rk))).map
      (fun e => c.reward (e.2 / (getCnt totals e.1.1).getD 0))).sum

/-! ## Withdrawal pipeline types

`Withdrawal`, `WithdrawalRequest` and the withdrawal-related config live in
the `crate::api` module of the server crate, which is not under src/ (only
its users are: src/src/contract/mod.rs, src/src/ps/mod.rs,
src/src/state.rs).  They are modelled from those use sites and from the
spec record shapes (§3 pending-withdrawal record, §4.5 entry body). -/

/-- Modelled from the spec: `state ∈ {Pending, Complete, Error}` of the
pending-withdrawal record (spec §3); the variant names appear in src at
src/src/contract/mod.rs:219 and src/src/ps/mod.rs:101-104. -/
inductive WithdrawalState
  | Pending
  | Complete
  | Error
deriving DecidableEq, Repr

/-- `WithdrawalStateData` as constructed in src/src/ps/mod.rs:110-113:
a state and its unix-seconds change time. -/
structure WithdrawalStateData where
  state : WithdrawalState
  state_changed : Int
deriving DecidableEq, Repr

/-- Modelled from the spec: `WithdrawalRequest{type, amount, destination}`
(spec §4.5); src uses `payload.w_type` and `payload.amount`
(src/src/contract/mod.rs:152,178) and `wr.destination`
(src/src/ps/mod.rs:94).  `amount` is a `u64`, modelled as `Nat`. -/
structure WithdrawalRequest where
  w_type : String
  amount : Nat
  destination : String
deriving DecidableEq, Repr

/-- `Withdrawal` as constructed in src/src/ps/mod.rs:108-116:
`{id, state_data, withdrawal_request, receipt}`. -/
structure Withdrawal where
  id : String
  state_data : WithdrawalStateData
  withdrawal_request : WithdrawalRequest
  receipt : String
deriving DecidableEq, Repr

/-- The flattened state accessor used as `w.state` at
src/src/contract/mod.rs:219 (the `state_data` fields are serde-flattened
in the missing `crate::api` definition, per the spec §3 record). -/
def Withdrawal.state (w : Withdrawal) : WithdrawalState :=
  w.state_data.state

/-- Payout configuration entry: the embedded handler reads `cfg.ps_type`
and `cfg.endpoint` (src/src/contract/mod.rs:152,163); the remaining fields
of the source struct (check_period, min/max withdrawal, info) are unused
by the embedded code paths and omitted. -/
structure PayoutCfg where
  endpoint : String
  ps_type : String
deriving DecidableEq, Repr

/-- `Status` (src/src/api.rs:47-52). -/
structure Status where
  code : Nat
  desc : String
deriving DecidableEq, Repr

/-- `base64::encoded_len(n, false)` for the URL-safe unpadded alphabet:
`ceil(4n/3)` characters. -/
def b64EncodedLen (n : Nat) : Nat := (4 * n + 2) / 3

/-- `ed25519_dalek::PUBLIC_KEY_LENGTH`. -/
def PUBLIC_KEY_LENGTH : Nat := 32

/-- `ed25519_dalek::SIGNATURE_LENGTH`. -/
def SIGNATURE_LENGTH : Nat := 64

/-- `HeaderMap::get`: first value for the given (lowercase) header name. -/
def headerGet : List (String × String) → String → Option String
  | [], _ => none
  | (k, v) :: t, k0 => if k = k0 then some v else headerGet t k0

/-- Result of one `/withdraw` handler run: the HTTP-level result, the
balances map after the run (the tracker ledger is shared state), the
messages sent to the watcher channel and to the tracker's BalanceUpdate
channel, and the tracker-log events emitted by the handler.  The source
handler never sends on the BalanceUpdate channel and never touches the
tracker log, so the last two are always empty. -/
structure WithdrawOut where
  result : Except Status Withdrawal
  balances : BalMap
  watcher : List Withdrawal
  txnq : List BalanceUpdate
  events : List Event
deriving Repr

/-- `withdraw_post_handler` (src/src/contract/mod.rs:101-247).
Inputs: the configured payout methods, the payment-system response
(`none` models a failed / unreachable request; response-body parse
failures are folded into the same `none` since the model does not
distinguish their 500 texts), the request headers, the parsed body
(`.error e` models an axum `JsonRejection` with text `e`), and the
current balances map.  Header values are modelled as strings
(`to_str()` always succeeds); `serde_json::to_string` of the payload
cannot fail and is modelled as succeeding. -/
def withdraw_post_handler (payout : List PayoutCfg) (psResponse : Option Withdrawal)
    (headers : List (String × String)) (rbody : Except String WithdrawalRequest)
    (bal : BalMap) : WithdrawOut :=
  match rbody with
  | .error e =>
    ⟨.error ⟨400, e⟩, bal, [], [], []⟩
  | .ok payload =>
    match headerGet headers "wireleap-relay-pubkey" with
    | none => ⟨.error ⟨500, "no relay pubkey passed"⟩, bal, [], [], []⟩
    | some pks =>
      match headerGet headers "wireleap-relay-signature" with
      | none => ⟨.error ⟨500, "no relay signature passed"⟩, bal, [], [], []⟩
      | some sig =>
        if pks.length ≠ b64EncodedLen PUBLIC_KEY_LENGTH then
          ⟨.error ⟨500, "public key is the wrong length!"⟩, bal, [], [], []⟩
        else if sig.length ≠ b64EncodedLen SIGNATURE_LENGTH then
          ⟨.error ⟨500, "signature is the wrong length!"⟩, bal, [], [], []⟩
        else if payout.isEmpty then
          ⟨.error ⟨500, "there are no payout methods defined"⟩, bal, [], [], []⟩
        else
          match payout.find? (fun cfg => cfg.ps_type = payload.w_type) with
          | none => ⟨.error ⟨500, "no payout methods fits withdrawal"⟩, bal, [], [], []⟩
          | some _ps =>
            let rk := pks
            match Balances.draft bal rk (-(payload.amount : ℚ)) with
            | (.error e, bal1) => ⟨.error ⟨500, e⟩, bal1, [], [], []⟩
            | (.ok (), bal1) =>
              match psResponse with
              | none =>
                ⟨.error ⟨500, "could not perform payment system request"⟩,
                 bal1, [], [], []⟩
              | some w =>
                if w.state = WithdrawalState.Pending then
                  ⟨.ok w, bal1, [w], [], []⟩
                else
                  ⟨.ok w, bal1, [], [], []⟩

/-! ## Header-signed JSON extractor (src/src/api/headersignedjson.rs) -/

/-- `Signatory` (src/src/api/headersignedjson.rs:10-17). -/
inductive Signatory
  | Auth
  | Relay
  | Client
  | Contract
  | Directory
deriving DecidableEq, Repr

/-- `Signatory::from_str` as generated by `derive(EnumString)` of strum:
it matches the exact variant identifiers, case-sensitively (no
`ascii_case_insensitive` attribute is present). -/
def Signatory.fromStr : String → Option Signatory
  | "Auth" => some .Auth
  | "Relay" => some .Relay
  | "Client" => some .Client
  | "Contract" => some .Contract
  | "Directory" => some .Directory
  | _ => none

/-- `Field` (src/src/api/headersignedjson.rs:19-23); named `HeaderField`
here because `Field` collides with the Mathlib algebra class. -/
inductive HeaderField
  | Pubkey
  | Signature
deriving DecidableEq, Repr

/-- `Field::from_str` as generated by `derive(EnumString)`: exact,
case-sensitive variant identifiers. -/
def HeaderField.fromStr : String → Option HeaderField
  | "Pubkey" => some .Pubkey
  | "Signature" => some .Signature
  | _ => none

/-- Accumulator of the header fold: `(signatory, pubkey value, signature
value)` as in src/src/api/headersignedjson.rs:56. -/
abbrev HsjAcc := Option Signatory × Option String × Option String

/-- One step of the header fold (src/src/api/headersignedjson.rs:56-84).
Note the two faithful quirks of the source: any second matching
`wireleap-*` header resets the whole accumulator to `(None, None, None)`
(the `acc.0.is_some()` check fires on the signature header of a legitimate
pair as well), and the `Pubkey` arm copies the old pubkey slot `acc.1`
into the signature slot. -/
def hsjFold (acc : HsjAcc) (kv : String × String) : HsjAcc :=
  let k := kv.1
  if k.startsWith "wireleap-" then
    match k.splitOn "-" with
    | [_, s1, s2] =>
      match Signatory.fromStr s1 with
      | some who =>
        match HeaderField.fromStr s2 with
        | some what =>
          if acc.1.isSome then
            -- we already have some field like this... fail!
            (none, none, none)
          else
            match what with
            | .Pubkey => (some who, some kv.2, acc.2.1)
            | .Signature => (some who, acc.2.1, some kv.2)
        | none => acc
      | none => acc
    | _ => acc
  else acc

/-- A successfully extracted `HeaderSignedJson<T>`
(src/src/api/headersignedjson.rs:25-30). -/
structure HSJOut (T : Type) where
  signatory : Signatory
  public_key : String
  signature : String
  data : T

/-- `HeaderSignedJson::<T>::from_request`
(src/src/api/headersignedjson.rs:50-107).  The base64/serde decoding of
the two header values, the Ed25519 verification against the raw body
bytes, and the typed reparse of the body are abstracted as the
`decodePk`, `decodeSig`, `verify` and `parseBody` parameters (their 400
error texts come from serde errors and are modelled as fixed strings). -/
def HeaderSignedJson.from_request {T : Type}
    (decodePk decodeSig : String → Option String)
    (verify : String → String → String → Bool)
    (parseBody : String → Option T)
    (headers : List (String × String)) (body : String) :
    Except Status (HSJOut T) :=
  match headers.foldl hsjFold (none, none, none) with
  | (some who, some pkS, some sigS) =>
    match decodePk pkS with
    | none => .error ⟨400, "could not decode public key header"⟩
    | some pk =>
      match decodeSig sigS with
      | none => .error ⟨400, "could not decode signature header"⟩
      | some sg =>
        if verify pk body sg then
          match parseBody body with
          | some v => .ok ⟨who, pk, sg, v⟩
          | none => .error ⟨400, "could not parse body"⟩
        else
          .error ⟨400, "invalid signature"⟩
  | _ => .error ⟨400, "missing headers"⟩

/-! ## Ledger views -/

/-- Available balance at a key, defaulting to 0 (the `or_default` view). -/
def availD (m : BalMap) (k : String) : ℚ := ((getBal m k).getD (0, 0)).1

/-- Pending balance at a key, defaulting to 0. -/
def pendD (m : BalMap) (k : String) : ℚ := ((getBal m k).getD (0, 0)).2


/-! ## Concrete instances used by witnesses and counterexamples -/

/-- A sharetoken literal: version 1, servicekey `sk`, relay `rk`, timestamp
`ts`, settlement close `close` (settlement open 0), opaque nonce and
signature strings. -/
def mkST (sk rk : String) (ts close : Int) : Sharetoken :=
  { version := 1, public_key := sk, timestamp := ts, relay_pubkey := rk,
    signature := "SIG", nonce := "NONCE",
    contract := { public_key := "C", signature := "CSIG",
                  settlement_open := 0, settlement_close := close } }

/-- The share calculator of the default configuration: value 100, 5 percent
fee fraction, 5 percent revenue-share fraction (src/src/cfg.rs:38-45 and
spec section 4.4). -/
def calc100 : DefaultShareCalc := ⟨100, 1/20, 1/20⟩

/-- An empty tracker with the given calculator and interval. -/
def mkTracker (c : DefaultShareCalc) (interval : Int) : Tracker :=
  { shareCalc := c, interval := interval, sts := [], balances := [],
    totals := [], tokens := [], archive_q := [], log := [] }

/-- A sharetoken with an early timestamp but a late settlement close. -/
def stEarlyLate : Sharetoken := mkST "K" "RA" 1 200

/-- A sharetoken with a later timestamp but an earlier settlement close. -/
def stLateEarly : Sharetoken := mkST "K" "RB" 2 100

/-- Queue with both sharetokens pushed: the early-timestamp, late-close one
sits at the heap top. -/
def trBlocked : Tracker :=
  ((mkTracker calc100 10).push stEarlyLate).push stLateEarly

/-- Settlement scenario S1 of the spec: three sharetokens of servicekey K
for relay R, all with settlement close 100. -/
def trScenario : Tracker :=
  (((mkTracker calc100 10).push (mkST "K" "R" 1 100)).push
    (mkST "K" "R" 2 100)).push (mkST "K" "R" 3 100)

/-- The tracker state after `tick(100)` on the settlement scenario: queue
drained, relay R credited with 90, temporary tables cleared. -/
def trScenarioTicked : Tracker :=
  { shareCalc := calc100, interval := 10, sts := [],
    balances := [("R", (90, 0))], totals := [], tokens := [], archive_q := [],
    log := [.Submission "K" "R", .Submission "K" "R", .Submission "K" "R",
            .Distribution "K" "R" 90, .Settlement "K"] }

/-- A relay public key header value of the correct base64 length (43). -/
def pk43 : String := String.mk (List.replicate 43 'B')

/-- A garbage signature header value of the correct base64 length (86). -/
def sigA : String := String.mk (List.replicate 86 'A')

/-- A different garbage signature header value of length 86. -/
def sigC : String := String.mk (List.replicate 86 'C')

/-- Withdrawal request headers carrying the given signature value. -/
def wHeaders (sg : String) : List (String × String) :=
  [("wireleap-relay-pubkey", pk43), ("wireleap-relay-signature", sg)]

/-- A withdrawal request for 40 units of the configured payout type. -/
def wReq : WithdrawalRequest := { w_type := "dummy", amount := 40, destination := "D" }

/-- The configured payout methods: a single entry of type "dummy". -/
def payout1 : List PayoutCfg := [{ endpoint := "http://ps", ps_type := "dummy" }]

/-- A payment-system response in state Pending. -/
def wPending : Withdrawal :=
  { id := "W1", state_data := { state := .Pending, state_changed := 0 },
    withdrawal_request := wReq, receipt := "RECEIPT" }

/-- A payment-system response in state Complete. -/
def wComplete : Withdrawal :=
  { id := "W2", state_data := { state := .Complete, state_changed := 0 },
    withdrawal_request := wReq, receipt := "RECEIPT" }

/-- A payment-system response in state Error. -/
def wError : Withdrawal :=
  { id := "W3", state_data := { state := .Error, state_changed := 0 },
    withdrawal_request := wReq, receipt := "RECEIPT" }

/-- Initial ledger: the withdrawing relay has 100 available, nothing pending. -/
def balR : BalMap := [(pk43, (100, 0))]

/-- Tracker state at tick time for claim C9: one due sharetoken for the
relay whose withdrawal draft is still pending (the balances map is exactly
the one produced by the accepted `/withdraw` run of the same claim). -/
def trPendingWithdrawal : Tracker :=
  { mkTracker calc100 10 with
    sts := [mkST "K" pk43 1 50],
    balances := [(pk43, (100, -40))] }

/-! # Theorems -/

/-! ### Association-list lemmas -/

theorem getBal_setBal_self (m : BalMap) (k : String) (v : ℚ × ℚ) :
    getBal (setBal m k v) k = some v := by
  induction m with
  | nil => simp [setBal, getBal]
  | cons h t ih =>
    by_cases hk : h.1 = k
    · simp [setBal, hk, getBal]
    · simp [setBal, hk, getBal, ih]

theorem getBal_setBal_ne (m : BalMap) (k k0 : String) (v : ℚ × ℚ) (h : k ≠ k0) :
    getBal (setBal m k v) k0 = getBal m k0 := by
  induction m with
  | nil => simp [setBal, getBal, h]
  | cons hd t ih =>
    by_cases hk : hd.1 = k
    · simp [setBal, hk, getBal, h]
    · by_cases hk0 : hd.1 = k0
      · simp [setBal, hk, getBal, hk0, Ne.symm h]
      · simp [setBal, hk, getBal, hk0, ih]

theorem getBal_entryOrDefault_self (m : BalMap) (k : String) :
    getBal (entryOrDefault m k).1 k = some (entryOrDefault m k).2 := by
  unfold entryOrDefault
  cases h : getBal m k with
  | none => simpa using getBal_setBal_self m k (0, 0)
  | some v => simp [h]

theorem getBal_entryOrDefault_ne (m : BalMap) (k k0 : String) (h : k ≠ k0) :
    getBal (entryOrDefault m k).1 k0 = getBal m k0 := by
  unfold entryOrDefault
  cases hg : getBal m k with
  | none => simpa using getBal_setBal_ne m k k0 (0, 0) h
  | some v => simp

theorem mem_insertByTs (b st : Sharetoken) (l : List Sharetoken) :
    b ∈ insertByTs st l ↔ b = st ∨ b ∈ l := by
  induction l with
  | nil => simp [insertByTs]
  | cons hd t ih =>
    rw [insertByTs]
    by_cases hle : hd.timestamp ≤ st.timestamp
    · simp only [hle, if_true, List.mem_cons, ih]
      try tauto
    · simp only [hle, if_false, List.mem_cons]
      try tauto

theorem sortedByTs_insertByTs (st : Sharetoken) (l : List Sharetoken)
    (h : sortedByTs l) : sortedByTs (insertByTs st l) := by
  induction l with
  | nil => simp [insertByTs, sortedByTs]
  | cons hd t ih =>
    rw [sortedByTs, List.pairwise_cons] at h
    by_cases hle : hd.timestamp ≤ st.timestamp
    · have ht := ih h.2
      rw [insertByTs]
      simp only [hle, if_true]
      rw [sortedByTs, List.pairwise_cons]
      refine ⟨?_, ht⟩
      intro b hb
      rcases (mem_insertByTs b st t).mp hb with rfl | hmem
      · exact hle
      · exact h.1 b hmem
    · rw [insertByTs]
      simp only [hle, if_false]
      rw [sortedByTs, List.pairwise_cons]
      constructor
      · intro b hb
        have hst : st.timestamp ≤ hd.timestamp := le_of_not_le hle
        rcases List.mem_cons.mp hb with rfl | hmem
        · exact hst
        · exact le_trans hst (h.1 b hmem)
      · rw [sortedByTs, List.pairwise_cons] at *
        exact ⟨h.1, h.2⟩

/-! ### Ledger helper lemmas -/

theorem entryOrDefault_snd (m : BalMap) (k : String) :
    (entryOrDefault m k).2 = (getBal m k).getD (0, 0) := by
  unfold entryOrDefault
  cases h : getBal m k <;> simp

theorem draft_fst_ok_iff (m : BalMap) (rk : String) (delta : ℚ) :
    (Balances.draft m rk delta).1 = .ok () ↔
      (pendD m rk = 0 ∧
       (delta < 0 → 0 < availD m rk ∧ 0 < availD m rk + delta ∧
         DecimalMIN - delta < availD m rk) ∧
       (0 ≤ delta → availD m rk < DecimalMAX - delta)) := by
  simp only [Balances.draft, entryOrDefault_snd, availD, pendD]
  constructor
  · intro hok
    split_ifs at hok with h1 h2 h3 h4 h5 h6
    all_goals first
      | (simp at hok; done)
      | (push_neg at h1 h3 h4 h5
         exact ⟨h1, fun _ => ⟨h3, by linarith, by linarith⟩,
           fun hd => absurd hd (by linarith)⟩)
      | (push_neg at h1 h2 h6
         exact ⟨h1, fun hd => absurd hd (by linarith), fun _ => by linarith⟩)
  · rintro ⟨hp0, hneg, hpos⟩
    split_ifs with h1 h2 h3 h4 h5 h6
    · exact absurd hp0 h1
    · rcases hneg h2 with ⟨ha, hb, hc⟩
      linarith
    · rcases hneg h2 with ⟨ha, hb, hc⟩
      linarith
    · rcases hneg h2 with ⟨ha, hb, hc⟩
      linarith
    · rfl
    · have := hpos (not_lt.mp h2)
      linarith
    · rfl

theorem draft_ok_snd (m : BalMap) (rk : String) (delta : ℚ)
    (h : (Balances.draft m rk delta).1 = .ok ()) :
    (Balances.draft m rk delta).2 =
      setBal (entryOrDefault m rk).1 rk (availD m rk, delta) := by
  simp only [Balances.draft, entryOrDefault_snd, availD] at h ⊢
  split_ifs at h ⊢ <;> simp_all

theorem draft_err_snd (m : BalMap) (rk : String) (delta : ℚ) (e : String)
    (h : (Balances.draft m rk delta).1 = .error e) :
    (Balances.draft m rk delta).2 = (entryOrDefault m rk).1 := by
  simp only [Balances.draft, entryOrDefault_snd] at h ⊢
  split_ifs at h ⊢ <;> simp_all

theorem getBal_draft_snd_ne (m : BalMap) (rk k : String) (delta : ℚ) (h : rk ≠ k) :
    getBal (Balances.draft m rk delta).2 k = getBal m k := by
  simp only [Balances.draft, entryOrDefault_snd]
  split_ifs <;>
    simp only [] <;>
    first
      | exact getBal_entryOrDefault_ne m rk k h
      | rw [getBal_setBal_ne _ _ _ _ h]; exact getBal_entryOrDefault_ne m rk k h

theorem getBal_commit_ne (m : BalMap) (rk k : String) (act : Action) (h : rk ≠ k) :
    getBal (Balances.commit m rk act) k = getBal m k := by
  simp only [Balances.commit]
  cases act <;>
    simp only [] <;>
    rw [getBal_setBal_ne _ _ _ _ h] <;>
    exact getBal_entryOrDefault_ne m rk k h

/-- Effect of a successful draft followed by `commit(Apply)` on the drafted
key: the reward lands in the available balance and pending returns to 0. -/
theorem draft_commit_apply (m : BalMap) (rk : String) (r : ℚ)
    (h : (Balances.draft m rk r).1 = .ok ()) :
    getBal (Balances.commit (Balances.draft m rk r).2 rk .Apply) rk
      = some (availD m rk + r, 0) := by
  rw [draft_ok_snd m rk r h]
  simp only [Balances.commit]
  have hget : getBal (setBal (entryOrDefault m rk).1 rk (availD m rk, r)) rk
      = some (availD m rk, r) := getBal_setBal_self _ _ _
  rw [entryOrDefault_snd]
  · simp only [hget, Option.getD_some]
    exact getBal_setBal_self _ _ _


/-! ## C6 and C10: `Balances::draft` behaviour -/

/-- C6: `Balances.draft(relay, delta)` follows the spec case split on the
current `(available, pending)` pair: a non-zero pending rejects; a negative
delta requires a strictly positive available balance, a strictly positive
post-withdrawal balance (zero-ending withdrawals are rejected) and no
Decimal underflow; a nonnegative delta fails only on Decimal overflow; and
every successful draft sets `pending = delta` leaving `available`
unchanged. -/
theorem claim_C6_draft_case_split (m : BalMap) (rk : String) (delta : ℚ) :
    ((Balances.draft m rk delta).1 = .ok () ↔
      (pendD m rk = 0 ∧
       (delta < 0 → 0 < availD m rk ∧ 0 < availD m rk + delta ∧
         DecimalMIN - delta < availD m rk) ∧
       (0 ≤ delta → availD m rk < DecimalMAX - delta))) ∧
    ((Balances.draft m rk delta).1 = .ok () →
      getBal (Balances.draft m rk delta).2 rk = some (availD m rk, delta)) := by
  refine ⟨draft_fst_ok_iff m rk delta, fun h => ?_⟩
  rw [draft_ok_snd m rk delta h]
  exact getBal_setBal_self _ _ _

/-- Witness for C6 at a concrete ledger: drafting a withdrawal of 40
against `(available, pending) = (100, 0)` succeeds and records
`pending = -40` with `available` unchanged. -/
theorem claim_C6_draft_case_split_witness :
    (Balances.draft [("R", (100, 0))] "R" (-40)).1 = .ok () ∧
    getBal (Balances.draft [("R", (100, 0))] "R" (-40)).2 "R" = some (100, -40) := by
  have h := claim_C6_draft_case_split [("R", (100, 0))] "R" (-40)
  have hok : (Balances.draft [("R", (100, 0))] "R" (-40)).1 = .ok () := by
    apply h.1.mpr
    refine ⟨by decide, fun _ => ⟨by norm_num [availD, getBal], by norm_num [availD, getBal],
      by norm_num [availD, getBal, DecimalMIN, DecimalMAX]⟩, fun hc => by norm_num at hc⟩
  refine ⟨hok, ?_⟩
  have := h.2 hok
  rw [this]
  norm_num [availD, getBal]

/-- C10: both `draft` and `commit` insert a fresh `(0, 0)` entry for an
unseen relay key before any check; a withdrawal draft for a never-credited
relay fails with "you got zero cash!" rather than a missing-key error; and
the key set of the map only grows, with the drafted key present afterwards
even when the draft fails. -/
theorem claim_C10_or_default_insertion (m : BalMap) (rk : String) (delta : ℚ)
    (act : Action) :
    ((getBal (Balances.draft m rk delta).2 rk).isSome) ∧
    ((getBal (Balances.commit m rk act) rk).isSome) ∧
    (∀ k, (getBal m k).isSome → (getBal (Balances.draft m rk delta).2 k).isSome) ∧
    (∀ k, (getBal m k).isSome → (getBal (Balances.commit m rk act) k).isSome) ∧
    (getBal m rk = none → delta < 0 →
      (Balances.draft m rk delta).1 = .error "you got zero cash!") := by
  refine ⟨?_, ?_, ?_, ?_, ?_⟩
  · cases hf : (Balances.draft m rk delta).1 with
    | ok u =>
      cases u
      rw [draft_ok_snd m rk delta hf, getBal_setBal_self]
      rfl
    | error e =>
      rw [draft_err_snd m rk delta e hf, getBal_entryOrDefault_self]
      rfl
  · simp only [Balances.commit]
    cases act <;> simp only [] <;> rw [getBal_setBal_self] <;> rfl
  · intro k hk
    by_cases hrk : rk = k
    · subst hrk
      cases hf : (Balances.draft m rk delta).1 with
      | ok u =>
        cases u
        rw [draft_ok_snd m rk delta hf, getBal_setBal_self]
        rfl
      | error e =>
        rw [draft_err_snd m rk delta e hf, getBal_entryOrDefault_self]
        rfl
    · rw [getBal_draft_snd_ne m rk k delta hrk]
      exact hk
  · intro k hk
    by_cases hrk : rk = k
    · subst hrk
      simp only [Balances.commit]
      cases act <;> simp only [] <;> rw [getBal_setBal_self] <;> rfl
    · rw [getBal_commit_ne m rk k act hrk]
      exact hk
  · intro hnone hneg
    simp only [Balances.draft, entryOrDefault_snd, hnone]
    simp [hneg]

/-! ## C7: reward function -/

/-- C7: the default reward function computes
`reward(s) = s * (value - fee_frac*value - rsh_frac*value)` exactly; with
value 100 and both fractions 5 percent, `reward(1) = 90`, and a relay
holding all 3 of 3 tokens of a servicekey ends the settlement tick with
available balance 90 (and zero pending). -/
theorem claim_C7_reward_formula (c : DefaultShareCalc) (s : ℚ) :
    c.reward s = s * (c.value - c.fee_frac * c.value - c.rsh_frac * c.value) ∧
    calc100.reward 1 = 90 ∧
    (Tracker.tick trScenario 100).toOption.map
      (fun p => getBal p.1.balances "R") = some (some (90, 0)) := by
  refine ⟨rfl, by norm_num [DefaultShareCalc.reward, calc100], ?_⟩
  norm_num +decide [Tracker.tick, trScenario, mkTracker, Tracker.push, mkST, insertByTs,
    Tracker.poppedSTs, distribute, getCnt, bumpCnt, Balances.draft, Balances.commit,
    entryOrDefault, getBal, setBal, DefaultShareCalc.reward, calc100,
    DecimalMAX, DecimalMIN, Except.toOption]

/-! ## C8: sharetoken digest and Signed deserialization -/

/-- C8: the canonical sharetoken digest is the ordered values version,
public key, timestamp, relay pubkey, empty share key and nonce, followed by
the embedded contract digest-with-signature, all joined by `:`; the
sharetoken's own signature field does not influence the digest; and
deserializing `Signed<Sharetoken>` succeeds exactly when the Ed25519
signature verifies over this digest with the record's public key. -/
theorem claim_C8_digest_and_signed (st : Sharetoken) (s2 : String)
    (verify : String → String → String → Bool) :
    st.digest = String.intercalate ":"
      ([toString st.version, st.public_key, toString st.timestamp,
        st.relay_pubkey, "", st.nonce] ++ st.contract.digestWithSigFields) ∧
    Sharetoken.digest { st with signature := s2 } = st.digest ∧
    ((Signed.deserialize verify st).isSome ↔
      verify st.public_key st.digest st.signature = true) := by
  refine ⟨rfl, rfl, ?_⟩
  by_cases h : verify st.public_key st.digest st.signature <;>
    simp [Signed.deserialize, h]

/-! ## C3: the header-signed extractor -/

theorem hsjFold_inv (acc : HsjAcc) (kv : String × String)
    (h : (acc.1 = none → acc.2.1 = none ∧ acc.2.2 = none) ∧
      ¬(acc.2.1.isSome ∧ acc.2.2.isSome)) :
    ((hsjFold acc kv).1 = none →
      (hsjFold acc kv).2.1 = none ∧ (hsjFold acc kv).2.2 = none) ∧
    ¬((hsjFold acc kv).2.1.isSome ∧ (hsjFold acc kv).2.2.isSome) := by
  unfold hsjFold
  by_cases hsw : kv.1.startsWith "wireleap-"
  · rw [if_pos hsw]
    split
    · split
      · split
        · by_cases hacc : acc.1.isSome
          · rw [if_pos hacc]
            simp
          · rw [if_neg hacc]
            have hnone : acc.1 = none := Option.not_isSome_iff_eq_none.mp hacc
            have h21 : acc.2.1 = none := (h.1 hnone).1
            split <;> simp [h21]
        · exact h
      · exact h
    · exact h
  · rw [if_neg hsw]
    exact h

theorem hsjFoldl_not_complete (headers : List (String × String)) (acc : HsjAcc)
    (h : (acc.1 = none → acc.2.1 = none ∧ acc.2.2 = none) ∧
      ¬(acc.2.1.isSome ∧ acc.2.2.isSome)) :
    ¬((headers.foldl hsjFold acc).2.1.isSome ∧
      (headers.foldl hsjFold acc).2.2.isSome) := by
  induction headers generalizing acc with
  | nil => exact h.2
  | cons kv t ih =>
    rw [List.foldl_cons]
    exact ih (hsjFold acc kv) (hsjFold_inv acc kv h)

/-- C3: the header fold of `HeaderSignedJson::from_request` can never
produce both a pubkey and a signature value (any second matching header
resets the accumulator, and the pubkey arm copies the pubkey slot into the
signature slot), so the extractor rejects every request — including one
carrying exactly one well-formed
`wireleap-<signatory>-pubkey` / `wireleap-<signatory>-signature` pair —
with 400 "missing headers"; the signature-verification success path is
unreachable. -/
theorem claim_C3_extractor_always_missing_headers (T : Type)
    (decodePk decodeSig : String → Option String)
    (verify : String → String → String → Bool) (parseBody : String → Option T)
    (headers : List (String × String)) (body : String) :
    HeaderSignedJson.from_request decodePk decodeSig verify parseBody headers body
      = .error ⟨400, "missing headers"⟩ := by
  unfold HeaderSignedJson.from_request
  have hinv := hsjFoldl_not_complete headers (none, none, none) (by simp)
  rcases hfold : headers.foldl hsjFold (none, none, none) with ⟨a, b, c⟩
  rw [hfold] at hinv
  match a, b, c, hinv with
  | none, _, _, _ => rfl
  | some _, none, _, _ => rfl
  | some _, some _, none, _ => rfl
  | some _, some _, some _, hinv => exact absurd (by simp) hinv

/-! ## C1: `/withdraw` performs no signature verification -/

/-- C1 (divergence witness): the `/withdraw` handler outcome is identical
for two different signature header values of the correct length — no
Ed25519 verification of the header signature ever happens — and a request
carrying a garbage signature is accepted: the ledger draft is performed
(pending becomes -40) and the withdrawal is returned, instead of the
claimed 400 rejection before any state change. -/
theorem claim_C1_withdraw_ignores_signature :
    withdraw_post_handler payout1 (some wPending) (wHeaders sigA) (.ok wReq) balR
      = withdraw_post_handler payout1 (some wPending) (wHeaders sigC) (.ok wReq) balR ∧
    (withdraw_post_handler payout1 (some wPending) (wHeaders sigA) (.ok wReq) balR).result
      = .ok wPending ∧
    getBal (withdraw_post_handler payout1 (some wPending) (wHeaders sigA)
      (.ok wReq) balR).balances pk43 = some (100, -40) := by
  refine ⟨?_, ?_, ?_⟩ <;>
    norm_num +decide [withdraw_post_handler, headerGet, wHeaders, payout1, wReq, balR,
      pk43, sigA, sigC, wPending, Withdrawal.state, b64EncodedLen, PUBLIC_KEY_LENGTH,
      SIGNATURE_LENGTH, Balances.draft, entryOrDefault, getBal, setBal,
      DecimalMAX, DecimalMIN, List.find?]

/-! ## C2: terminal payment-system responses are never committed -/

/-- C2 (divergence witness): after the draft, a payment-system response in
state Complete (or Error) enqueues no `Apply`/`Abort` BalanceUpdate, sends
nothing to the watcher, and logs no event — the drafted pending delta of
-40 stays uncommitted — while only a Pending response reaches the watcher
channel; `WithdrawalPending` is never logged by any handler code path. -/
theorem claim_C2_complete_response_uncommitted :
    (withdraw_post_handler payout1 (some wComplete) (wHeaders sigA) (.ok wReq) balR).result
      = .ok wComplete ∧
    (withdraw_post_handler payout1 (some wComplete) (wHeaders sigA) (.ok wReq) balR).watcher
      = [] ∧
    (withdraw_post_handler payout1 (some wComplete) (wHeaders sigA) (.ok wReq) balR).txnq
      = [] ∧
    (withdraw_post_handler payout1 (some wComplete) (wHeaders sigA) (.ok wReq) balR).events
      = [] ∧
    getBal (withdraw_post_handler payout1 (some wComplete) (wHeaders sigA)
      (.ok wReq) balR).balances pk43 = some (100, -40) ∧
    (withdraw_post_handler payout1 (some wError) (wHeaders sigA) (.ok wReq) balR).txnq
      = [] ∧
    (withdraw_post_handler payout1 (some wPending) (wHeaders sigA) (.ok wReq) balR).watcher
      = [wPending] := by
  refine ⟨?_, ?_, ?_, ?_, ?_, ?_, ?_⟩ <;>
    norm_num +decide [withdraw_post_handler, headerGet, wHeaders, payout1, wReq, balR,
      pk43, sigA, wPending, wComplete, wError, Withdrawal.state, b64EncodedLen,
      PUBLIC_KEY_LENGTH, SIGNATURE_LENGTH, Balances.draft, entryOrDefault, getBal,
      setBal, DecimalMAX, DecimalMIN, List.find?]

/-! ## C9: the distribution draft can fail on a reachable state -/

/-- C9 (failing interleaving): an accepted `/withdraw` run leaves the
relay's pending delta at -40 until the payment system confirms; a
settlement tick arriving in that window with a due sharetoken for the same
relay makes the distribution draft return the "already pending" error, so
the `unwrap()` in `Tracker::tick` panics — the asserted invariant that the
distribution draft always succeeds is violated by this interleaving. -/
theorem claim_C9_distribution_draft_can_panic :
    (withdraw_post_handler payout1 (some wPending) (wHeaders sigA) (.ok wReq) balR).balances
      = trPendingWithdrawal.balances ∧
    (mkST "K" pk43 1 50).contract.settlement_close ≤ 100 ∧
    Tracker.tick trPendingWithdrawal 100
      = .error "balance change already pending!" := by
  refine ⟨?_, by norm_num [mkST], ?_⟩
  · norm_num +decide [withdraw_post_handler, headerGet, wHeaders, payout1, wReq, balR,
      pk43, sigA, wPending, Withdrawal.state, b64EncodedLen, PUBLIC_KEY_LENGTH,
      SIGNATURE_LENGTH, Balances.draft, entryOrDefault, getBal, setBal,
      DecimalMAX, DecimalMIN, List.find?, trPendingWithdrawal, mkTracker]
  · norm_num +decide [Tracker.tick, trPendingWithdrawal, mkTracker, mkST,
      Tracker.poppedSTs, distribute, getCnt, bumpCnt, Balances.draft, Balances.commit,
      entryOrDefault, getBal, setBal, DefaultShareCalc.reward, calc100,
      DecimalMAX, DecimalMIN, pk43]

/-! ## C4 and C5: settlement tick lemmas -/

theorem getCnt_bumpCnt_self {α : Type} [DecidableEq α] (m : CountMap α) (k : α) :
    getCnt (bumpCnt m k) k = some ((getCnt m k).getD 0 + 1) := by
  induction m with
  | nil => simp [bumpCnt, getCnt]
  | cons hd t ih =>
    by_cases hk : hd.1 = k
    · simp [bumpCnt, hk, getCnt]
    · simp [bumpCnt, hk, getCnt, ih]

theorem getCnt_bumpCnt_ne {α : Type} [DecidableEq α] (m : CountMap α) (k k0 : α)
    (h : k ≠ k0) : getCnt (bumpCnt m k) k0 = getCnt m k0 := by
  induction m with
  | nil => simp [bumpCnt, getCnt, h]
  | cons hd t ih =>
    by_cases hk : hd.1 = k
    · simp [bumpCnt, hk, getCnt, h]
    · by_cases hk0 : hd.1 = k0
      · simp [bumpCnt, hk, getCnt, hk0, Ne.symm h]
      · simp [bumpCnt, hk, getCnt, hk0, ih]

theorem getCnt_foldl_bump {α : Type} [DecidableEq α] (key : Sharetoken → α)
    (l : List Sharetoken) (init : CountMap α) (k : α) :
    getCnt (l.foldl (fun m st => bumpCnt m (key st)) init) k =
      if l.countP (fun st => decide (key st = k)) = 0 then getCnt init k
      else some ((getCnt init k).getD 0
        + (l.countP (fun st => decide (key st = k)) : ℚ)) := by
  induction l generalizing init with
  | nil => simp
  | cons st rest ih =>
    rw [List.foldl_cons, ih (bumpCnt init (key st)), List.countP_cons]
    by_cases hk : key st = k
    · subst hk
      simp only [decide_True, if_true]
      rw [getCnt_bumpCnt_self]
      by_cases hc : rest.countP (fun s => decide (key s = key st)) = 0
      · simp [hc]
      · have h1 : ¬(rest.countP (fun s => decide (key s = key st)) + 1 = 0) := by omega
        simp only [hc, if_false, h1, Option.getD_some]
        congr 1
        push_cast
        ring
    · simp only [hk, decide_False, Bool.false_eq_true, if_false, add_zero]
      rw [getCnt_bumpCnt_ne _ _ _ hk]

theorem keys_bumpCnt {α : Type} [DecidableEq α] (m : CountMap α) (k : α) :
    (bumpCnt m k).map (fun e => e.1) =
      if k ∈ m.map (fun e => e.1) then m.map (fun e => e.1)
      else m.map (fun e => e.1) ++ [k] := by
  induction m with
  | nil => simp [bumpCnt]
  | cons hd t ih =>
    by_cases hk : hd.1 = k
    · simp [bumpCnt, hk]
    · simp only [bumpCnt, hk, if_false, List.map_cons, List.mem_cons]
      rw [ih]
      by_cases hmem : k ∈ t.map (fun e => e.1)
      · simp [hmem, Ne.symm hk]
      · simp [hmem, Ne.symm hk]

theorem nodup_keys_bumpCnt {α : Type} [DecidableEq α] (m : CountMap α) (k : α)
    (h : (m.map (fun e => e.1)).Nodup) :
    ((bumpCnt m k).map (fun e => e.1)).Nodup := by
  rw [keys_bumpCnt]
  by_cases hmem : k ∈ m.map (fun e => e.1)
  · simpa [hmem] using h
  · simp only [hmem, if_false]
    simp [List.nodup_append, h, hmem]

theorem nodup_keys_foldl_bump {α : Type} [DecidableEq α] (key : Sharetoken → α)
    (l : List Sharetoken) (init : CountMap α)
    (h : (init.map (fun e => e.1)).Nodup) :
    ((l.foldl (fun m st => bumpCnt m (key st)) init).map (fun e => e.1)).Nodup := by
  induction l generalizing init with
  | nil => exact h
  | cons st rest ih =>
    rw [List.foldl_cons]
    exact ih _ (nodup_keys_bumpCnt init (key st) h)

/-- The distribution loop credits each relay with exactly the sum of the
rewards of its token entries: when `distribute` succeeds, every relay's
available balance grows by `rkCreditSum`. -/
theorem distribute_avail (c : DefaultShareCalc) (totals : CountMap String)
    (toks : List ((String × String) × ℚ)) (bal : BalMap) (log : List Event)
    (bal1 : BalMap) (log1 : List Event)
    (h : distribute c totals toks bal log = .ok (bal1, log1)) :
    ∀ rk, availD bal1 rk = availD bal rk + rkCreditSum c totals toks rk := by
  induction toks generalizing bal log with
  | nil =>
    intro rk
    simp only [distribute] at h
    cases h
    simp [rkCreditSum]
  | cons e rest ih =>
    intro rk
    obtain ⟨⟨sk, rk0⟩, v⟩ := e
    simp only [distribute] at h
    by_cases hr : c.reward (v / (getCnt totals sk).getD 0) < 0
    · rw [if_pos hr] at h
      exact Except.noConfusion h
    · rw [if_neg hr] at h
      rcases hdr : Balances.draft bal rk0 (c.reward (v / (getCnt totals sk).getD 0))
        with ⟨res, b1⟩
      rw [hdr] at h
      cases res with
      | error e0 => exact Except.noConfusion h
      | ok u =>
        cases u
        have hok : (Balances.draft bal rk0
            (c.reward (v / (getCnt totals sk).getD 0))).1 = .ok () := by
          rw [hdr]
        have hb1 : (Balances.draft bal rk0
            (c.reward (v / (getCnt totals sk).getD 0))).2 = b1 := by
          rw [hdr]
        have hstep := ih _ _ h rk
        by_cases hrk : rk0 = rk
        · subst hrk
          have hcom := draft_commit_apply bal rk0 _ hok
          rw [hb1] at hcom
          rw [hstep]
          have : availD (Balances.commit b1 rk0 Action.Apply) rk0
              = availD bal rk0 + c.reward (v / (getCnt totals sk).getD 0) := by
            simp [availD, hcom]
          rw [this, rkCreditSum, rkCreditSum]
          simp only [List.filter_cons, decide_True, if_true, List.map_cons,
            List.sum_cons]
          ring
        · have hcb : getBal (Balances.commit b1 rk0 Action.Apply) rk = getBal bal rk := by
            rw [getBal_commit_ne _ _ _ _ hrk, ← hb1,
              getBal_draft_snd_ne _ _ _ _ hrk]
          rw [hstep]
          have : availD (Balances.commit b1 rk0 Action.Apply) rk = availD bal rk := by
            simp [availD, hcb]
          rw [this, rkCreditSum, rkCreditSum]
          simp only [List.filter_cons, hrk, decide_False, Bool.false_eq_true,
            if_false]

/-- Inversion of a successful `Tracker::tick`: the distribution succeeded,
the queue keeps exactly the non-drained suffix and the balances are the
distribution result. -/
theorem tick_ok_inv (tr : Tracker) (t : Int) (tr1 : Tracker) (next : Int)
    (hok : Tracker.tick tr t = .ok (tr1, next)) :
    ∃ bal log,
      distribute tr.shareCalc (tickTotals tr t) (tickTokens tr t) tr.balances tr.log
        = .ok (bal, log) ∧
      tr1.sts = tr.sts.dropWhile (fun st => st.contract.settlement_close ≤ t) ∧
      tr1.balances = bal ∧
      tr1.shareCalc = tr.shareCalc := by
  simp only [Tracker.tick] at hok
  rcases hdist : distribute tr.shareCalc (tickTotals tr t) (tickTokens tr t)
      tr.balances tr.log with e | ⟨bal, log⟩
  · rw [hdist] at hok
    exact Except.noConfusion hok
  · rw [hdist] at hok
    refine ⟨bal, log, rfl, ?_⟩
    simp only [Except.ok.injEq, Prod.mk.injEq] at hok
    obtain ⟨htr1, _⟩ := hok
    rw [← htr1]
    exact ⟨rfl, rfl, rfl⟩

theorem sortedByTs_foldl_push (l : List Sharetoken) (tr : Tracker)
    (h : sortedByTs tr.sts) : sortedByTs ((l.foldl Tracker.push tr).sts) := by
  induction l generalizing tr with
  | nil => exact h
  | cons st rest ih => exact ih _ (sortedByTs_insertByTs st tr.sts h)

/-! ## C5: pop order of the sharetoken queue -/

/-- C5 (counterexample): a tick pops the sharetokens in ascending order of
their own `timestamp` field, not of `contract.settlement_close`: pushing an
ST with timestamp 1 / close 200 and then one with timestamp 2 / close 100
makes a tick at 300 pop closes in the order [200, 100], which is not
nondecreasing. -/
theorem claim_C5_counterexample_pop_order :
    trBlocked.poppedSTs 300 = [stEarlyLate, stLateEarly] ∧
    stEarlyLate.contract.settlement_close = 200 ∧
    stLateEarly.contract.settlement_close = 100 ∧
    ¬ List.Pairwise
        (fun a b => a.contract.settlement_close ≤ b.contract.settlement_close)
        (trBlocked.poppedSTs 300) := by
  have hpop : trBlocked.poppedSTs 300 = [stEarlyLate, stLateEarly] := by
    norm_num +decide [Tracker.poppedSTs, trBlocked, mkTracker, Tracker.push,
      insertByTs, stEarlyLate, stLateEarly, mkST]
  refine ⟨hpop, rfl, rfl, ?_⟩
  rw [hpop]
  norm_num [List.pairwise_cons, stEarlyLate, stLateEarly, mkST]

/-- C5 (amended): the tracker queue is a min-structure ordered by the
sharetoken's own `timestamp` field ascending, so for every sequence of
pushed sharetokens the pop sequence of a tick is nondecreasing in
`timestamp` (but not, in general, in `contract.settlement_close`). -/
theorem claim_C5_amended_pop_order_by_timestamp (c : DefaultShareCalc)
    (interval : Int) (l : List Sharetoken) (t : Int) :
    List.Pairwise (fun a b => a.timestamp ≤ b.timestamp)
      ((l.foldl Tracker.push (mkTracker c interval)).poppedSTs t) := by
  have hs : sortedByTs ((l.foldl Tracker.push (mkTracker c interval)).sts) :=
    sortedByTs_foldl_push l _ (by simp [mkTracker, sortedByTs])
  exact List.Pairwise.sublist (List.takeWhile_sublist _) hs

/-! ## C4: which sharetokens a tick settles -/

/-- C4 (counterexample): a pushed sharetoken whose settlement close is due
(`100 ≤ 100`) is NOT settled by `tick(100)`, because the heap is ordered by
the STs' own timestamps and the top ST (timestamp 1, close 200) is not due,
which stops the drain loop: the tick succeeds, leaves both STs queued,
credits nothing to relay RB and returns 200 as the next tick time. -/
theorem claim_C4_counterexample_due_st_not_settled :
    stLateEarly.contract.settlement_close ≤ 100 ∧
    (Tracker.tick trBlocked 100).toOption.map
        (fun p => (p.1.sts, getBal p.1.balances "RB", p.2))
      = some ([stEarlyLate, stLateEarly], none, 200) := by
  refine ⟨by norm_num [stLateEarly, mkST], ?_⟩
  norm_num +decide [Tracker.tick, trBlocked, mkTracker, Tracker.push, insertByTs,
    stEarlyLate, stLateEarly, mkST, Tracker.poppedSTs, tickTotals, tickTokens,
    distribute, getCnt, bumpCnt, Balances.draft, Balances.commit, entryOrDefault,
    getBal, setBal, DefaultShareCalc.reward, calc100, DecimalMAX, DecimalMIN,
    Except.toOption]

/-- C4 (amended): when `tick(t)` succeeds on a queue sorted by timestamp
with empty temporary tables, (1) the popped sequence is an initial segment
of the queue and everything else stays queued, (2) every popped ST is due
(`settlement_close ≤ t`) — so no future ST is settled, (3) each distinct
(servicekey, relay) pair of the popped STs carries exactly one token-count
entry, equal to `count(sk, relay)`, with `totals` equal to `total(sk)`, and
(4) every relay's available balance is credited exactly the sum of
`reward(count(sk, relay) / total(sk))` over its (servicekey, relay)
entries.  Due STs that sit behind a not-yet-due ST of smaller timestamp
are NOT settled (see the counterexample). -/
theorem claim_C4_amended_settlement (tr : Tracker) (t : Int) (tr1 : Tracker)
    (next : Int) (hsorted : sortedByTs tr.sts) (htotals : tr.totals = [])
    (htokens : tr.tokens = []) (hok : Tracker.tick tr t = .ok (tr1, next)) :
    tr.poppedSTs t ++ tr1.sts = tr.sts ∧
    (∀ st ∈ tr.poppedSTs t, st.contract.settlement_close ≤ t) ∧
    (∀ st ∈ tr.sts, t < st.contract.settlement_close → st ∈ tr1.sts) ∧
    ((tickTokens tr t).map (fun e => e.1)).Nodup ∧
    (∀ sk rk, getCnt (tickTokens tr t) (sk, rk)
        = if pairCount (tr.poppedSTs t) sk rk = 0 then none
          else some (pairCount (tr.poppedSTs t) sk rk)) ∧
    (∀ sk, getCnt (tickTotals tr t) sk
        = if skCount (tr.poppedSTs t) sk = 0 then none
          else some (skCount (tr.poppedSTs t) sk)) ∧
    (∀ rk, availD tr1.balances rk
        = availD tr.balances rk
          + rkCreditSum tr.shareCalc (tickTotals tr t) (tickTokens tr t) rk) := by
  obtain ⟨bal, log, hdist, hsts, hbal, hcalc⟩ := tick_ok_inv tr t tr1 next hok
  have hsplit :
      tr.sts.takeWhile (fun st => decide (st.contract.settlement_close ≤ t))
        ++ tr.sts.dropWhile (fun st => decide (st.contract.settlement_close ≤ t))
        = tr.sts :=
    List.takeWhile_append_dropWhile
      (fun st => decide (st.contract.settlement_close ≤ t)) tr.sts
  refine ⟨?_, ?_, ?_, ?_, ?_, ?_, ?_⟩
  · rw [hsts]
    simpa only [Tracker.poppedSTs] using hsplit
  · intro st hst
    rw [Tracker.poppedSTs] at hst
    have hp := List.mem_takeWhile_imp hst
    exact of_decide_eq_true hp
  · intro st hst hgt
    rw [hsts]
    rw [← hsplit] at hst
    rcases List.mem_append.mp hst with hmem | hmem
    · have hp := List.mem_takeWhile_imp hmem
      exact absurd (of_decide_eq_true hp) (not_le.mpr hgt)
    · exact hmem
  · rw [tickTokens, htokens]
    exact nodup_keys_foldl_bump _ _ [] (by simp)
  · intro sk rk
    rw [tickTokens, htokens,
      getCnt_foldl_bump (fun st => (st.public_key, st.relay_pubkey))]
    have hcongr : (tr.poppedSTs t).countP
          (fun st => decide ((st.public_key, st.relay_pubkey) = (sk, rk)))
        = (tr.poppedSTs t).countP
          (fun st => decide (st.public_key = sk ∧ st.relay_pubkey = rk)) := by
      apply List.countP_congr
      intro st _
      simp [Prod.ext_iff]
    rw [hcongr]
    have hcast : pairCount (tr.poppedSTs t) sk rk = 0
        ↔ (tr.poppedSTs t).countP
            (fun st => decide (st.public_key = sk ∧ st.relay_pubkey = rk)) = 0 := by
      rw [pairCount]
      exact Nat.cast_eq_zero
    by_cases hc : (tr.poppedSTs t).countP
        (fun st => decide (st.public_key = sk ∧ st.relay_pubkey = rk)) = 0
    · rw [if_pos hc, if_pos (hcast.mpr hc)]
      rfl
    · rw [if_neg hc, if_neg (fun hh => hc (hcast.mp hh))]
      rw [pairCount]
      simp [getCnt]
  · intro sk
    rw [tickTotals, htotals, getCnt_foldl_bump (fun st => st.public_key)]
    have hcast : skCount (tr.poppedSTs t) sk = 0
        ↔ (tr.poppedSTs t).countP (fun st => decide (st.public_key = sk)) = 0 := by
      rw [skCount]
      exact Nat.cast_eq_zero
    by_cases hc : (tr.poppedSTs t).countP (fun st => decide (st.public_key = sk)) = 0
    · rw [if_pos hc, if_pos (hcast.mpr hc)]
      rfl
    · rw [if_neg hc, if_neg (fun hh => hc (hcast.mp hh))]
      rw [skCount]
      simp [getCnt]
  · intro rk
    rw [hbal]
    exact distribute_avail _ _ _ _ _ _ _ hdist rk

/-- Witness for the amended C4 on the three-token scenario: tick(100)
credits relay R exactly the distribution sum. -/
theorem claim_C4_amended_settlement_witness :
    availD trScenarioTicked.balances "R"
      = availD trScenario.balances "R"
        + rkCreditSum trScenario.shareCalc (tickTotals trScenario 100)
            (tickTokens trScenario 100) "R" :=
  (claim_C4_amended_settlement trScenario 100 trScenarioTicked 110
    (by norm_num +decide [sortedByTs, List.pairwise_cons, trScenario, mkTracker,
      Tracker.push, insertByTs, mkST])
    (by norm_num +decide [trScenario, mkTracker, Tracker.push])
    (by norm_num +decide [trScenario, mkTracker, Tracker.push])
    (by norm_num +decide [Tracker.tick, trScenario, trScenarioTicked, mkTracker,
      Tracker.push, insertByTs, mkST, Tracker.poppedSTs, tickTotals, tickTokens,
      distribute, getCnt, bumpCnt, Balances.draft, Balances.commit, entryOrDefault,
      getBal, setBal, DefaultShareCalc.reward, calc100,
      DecimalMAX, DecimalMIN])).2.2.2.2.2.2 "R"

/-- Witness for C10: a withdrawal draft on an empty ledger fails with
"you got zero cash!" and still inserts the key. -/
theorem claim_C10_or_default_insertion_witness :
    (Balances.draft [] "R" (-5)).1 = .error "you got zero cash!" ∧
    (getBal (Balances.draft [] "R" (-5)).2 "R").isSome := by
  have h := claim_C10_or_default_insertion [] "R" (-5) Action.Apply
  exact ⟨h.2.2.2.2 rfl (by norm_num), h.1⟩

end Wireskip
